import Mathlib

/-!
Verification development for the semantic-relation / emotional-history
extraction core (`app.py`).

The Python source is shallowly embedded:
* floats become `ℚ`,
* Python `dict` (insertion-ordered) becomes an association list
  `List (Int × List ℚ)` whose `setEntry` replaces in place,
* the external spaCy oracles (lemmatizer, POS-tagger, parsed `doc`) become
  explicit parameters (`lem : String → String`, `pos : String → Option String`,
  `doc : List Token`),
* Python truthiness of `Optional[str]` values (`None` and `""` are falsy)
  becomes `isTruthy`.
-/

namespace Clara

/-! ## Basic string helpers (Python `str.lower`, `str.strip`) -/

/-- Characters removed by Python `str.strip()` (whitespace). -/
def trimCharsList (l : List Char) : List Char :=
  ((l.dropWhile Char.isWhitespace).reverse.dropWhile Char.isWhitespace).reverse

/-- Python `s.strip()`. -/
def strTrim (s : String) : String :=
  String.mk (trimCharsList s.data)

/-- Python `s.lower()` (ASCII case folding, as needed for the tags/words here). -/
def strLower (s : String) : String :=
  String.mk (s.data.map Char.toLower)

/-- Python `s.upper()` (ASCII case folding). -/
def strUpper (s : String) : String :=
  String.mk (s.data.map Char.toUpper)

/-- `_normalize`: `word.lower().strip()`. -/
def normalize (w : String) : String :=
  strTrim (strLower w)

/-- Python truthiness for `Optional[str]`: `None` and `""` are falsy. -/
def isTruthy : Option String → Bool
  | none => false
  | some s => s ≠ ""

/-- Python `a or b` on `Optional[str]` values. -/
def pyOro (a b : Option String) : Option String :=
  if isTruthy a then a else b

/-- Python `a or b` where `b` is a plain string (used for `resolve(x) or x`). -/
def pyOr (a : Option String) (b : String) : String :=
  match a with
  | none => b
  | some s => if s = "" then b else s

/-! ## Emotional state store (`WordWithEmotions`) -/

/-- A word together with per-`sentence_id` emotion vectors.
`emotional_states` is a Python dict `int -> List[float]`;
we embed it as an insertion-ordered association list. -/
structure WordWithEmotions where
  word : String
  emotionalStates : List (Int × List ℚ)
deriving DecidableEq, Repr

/-- Python dict assignment `d[k] = v`: replace in place if the key is present
(keeping its position), append otherwise. -/
def setEntry (k : Int) (v : List ℚ) : List (Int × List ℚ) → List (Int × List ℚ)
  | [] => [(k, v)]
  | (k', v') :: rest => if k' = k then (k, v) :: rest else (k', v') :: setEntry k v rest

/-- `WordWithEmotions.add_state`: `emotions` defaults to 24 zeros. -/
def addState (w : WordWithEmotions) (sentenceId : Int) (emotions : Option (List ℚ)) :
    WordWithEmotions :=
  { w with emotionalStates :=
      setEntry sentenceId (emotions.getD (List.replicate 24 0)) w.emotionalStates }

/-- Lookup of the entry stored at a given sentence id. -/
def getState (w : WordWithEmotions) (sentenceId : Int) : Option (List ℚ) :=
  (w.emotionalStates.find? (fun p => p.1 = sentenceId)).map (·.2)

/-! ## Emotional history analyzer (`EmotionalAnalyzer`) -/

def EMOTION_NAMES : List String :=
  ["joie", "confiance", "peur", "surprise", "tristesse",
   "dégoût", "colère", "anticipation", "sérénité", "intérêt",
   "acceptation", "appréhension", "distraction", "ennui", "contrariété",
   "pensivité", "extase", "admiration", "terreur", "étonnement",
   "chagrin", "aversion", "rage", "vigilance"]

/-- Python `str.capitalize()` (first char upper, rest lower; ASCII folding). -/
def capitalize (s : String) : String :=
  match s.data with
  | [] => ""
  | c :: cs => String.mk (c.toUpper :: cs.map Char.toLower)

/-- Python `max(l)` with `0` for the empty list (the source guards emptiness). -/
def listMax : List ℚ → ℚ
  | [] => 0
  | [x] => x
  | x :: y :: rest => max x (listMax (y :: rest))

/-- Arithmetic mean; `0` on the empty list (`0/0 = 0` in `ℚ`). -/
def listMean (l : List ℚ) : ℚ :=
  l.sum / l.length

/-- `np.var` (population variance, ddof = 0). -/
def popVariance (l : List ℚ) : ℚ :=
  listMean (l.map (fun x => (x - listMean l) ^ 2))

/-- `EmotionalAnalyzer.get_dominant`. -/
def getDominant (emotions : List ℚ) : String :=
  if emotions = [] ∨ emotions.all (fun e => e = 0) then "Neutre"
  else
    let maxIdx := emotions.indexOf (listMax emotions)
    if maxIdx < EMOTION_NAMES.length then capitalize (EMOTION_NAMES.getD maxIdx "")
    else "Inconnu"

def positiveIndices : List Nat := [0, 1, 8, 9, 10, 16, 17]

def negativeIndices : List Nat := [2, 4, 5, 6, 11, 13, 20, 21, 22]

/-- `EmotionalAnalyzer.compute_valence`. -/
def computeValence (emotions : List ℚ) : ℚ :=
  if emotions = [] then 0
  else
    let positive := ((positiveIndices.filter (· < emotions.length)).map
      (fun i => emotions.getD i 0)).sum
    let negative := ((negativeIndices.filter (· < emotions.length)).map
      (fun i => emotions.getD i 0)).sum
    let total := positive + negative
    if total = 0 then 0 else (positive - negative) / total

/-- `EmotionalAnalyzer.compute_intensity`. -/
def computeIntensity (emotions : List ℚ) : ℚ :=
  if emotions = [] then 0
  else min 1 (emotions.sum / emotions.length * 2)

/-- Column `i` of the observation matrix (rows are 24-length emotion vectors). -/
def column (vs : List (List ℚ)) (i : Nat) : List ℚ :=
  vs.map (fun v => v.getD i 0)

/-- `np.mean(emotions_array, axis=0)` for 24-length rows. -/
def avgEmotionsOf (vs : List (List ℚ)) : List ℚ :=
  (List.range 24).map (fun i => listMean (column vs i))

/-- `float(np.mean(np.var(emotions_array, axis=0)))` for 24-length rows. -/
def meanVariance (vs : List (List ℚ)) : ℚ :=
  listMean ((List.range 24).map (fun i => popVariance (column vs i)))

/-- Slope of the degree-1 least-squares fit `np.polyfit(range(n), ys, 1)[0]`. -/
def polyfitSlope (ys : List ℚ) : ℚ :=
  let n : ℚ := (ys.length : ℚ)
  let xs : List ℚ := (List.range ys.length).map (fun i => (i : ℚ))
  let sxy := ((xs.zip ys).map (fun p => p.1 * p.2)).sum
  (n * sxy - xs.sum * ys.sum) / (n * (xs.map (fun x => x * x)).sum - xs.sum * xs.sum)

/-- Indices used for the trauma score (`negative_indices` at line 170). -/
def traumaIndices : List Nat := [2, 4, 5, 6, 11, 20, 21, 22]

/-- Trauma score: mean over observations of the max of the negative subset. -/
def traumaScoreOf (vs : List (List ℚ)) : ℚ :=
  listMean (vs.map (fun e =>
    listMax ((traumaIndices.filter (· < e.length)).map (fun i => e.getD i 0))))

/-- Trajectory of an observation map (values in insertion order). -/
def trajectoryOf (states : List (Int × List ℚ)) : String :=
  if 3 ≤ states.length then
    let valences := (states.map (·.2)).map computeValence
    let trend := polyfitSlope valences
    if 1/10 < trend then "ascending"
    else if trend < -(1/10) then "descending"
    else if 3/10 < meanVariance (states.map (·.2)) then "volatile"
    else "stable"
  else "stable"

/-- Result record of `EmotionalAnalyzer.analyze_history`. -/
structure HistoryAnalysis where
  avgEmotions : List ℚ
  variance : ℚ
  stability : ℚ
  trajectory : String
  traumaScore : ℚ
  dominantEmotion : String
  avgValence : ℚ
  avgIntensity : ℚ
  emotionCount : Nat
deriving DecidableEq, Repr

/-- `EmotionalAnalyzer.analyze_history`. -/
def analyzeHistory (states : List (Int × List ℚ)) : HistoryAnalysis :=
  if states = [] then
    { avgEmotions := List.replicate 24 0
      variance := 0
      stability := 1
      trajectory := "stable"
      traumaScore := 0
      dominantEmotion := "Neutre"
      avgValence := 0
      avgIntensity := 0
      emotionCount := 0 }
  else
    let vs := states.map (·.2)
    let avg := avgEmotionsOf vs
    let variance := meanVariance vs
    { avgEmotions := avg
      variance := variance
      stability := max 0 (1 - variance * 2)
      trajectory := trajectoryOf states
      traumaScore := traumaScoreOf vs
      dominantEmotion := getDominant avg
      avgValence := computeValence avg
      avgIntensity := computeIntensity avg
      emotionCount := states.length }

/-! ## Relation extractor (`RelationExtractor`)

The spaCy `doc` is embedded as a list of tokens; `children` and `headIdx` are
indices into that list (out-of-range indices resolve to `dummyToken`, modelling
a missing reference).  The `nlp`-based per-word oracles `_get_lemma` and
`_get_pos` become the parameters `lem` and `pos`. -/

structure Token where
  text : String
  lemma_ : String
  pos_ : String
  dep_ : String
  children : List Nat
  headIdx : Nat
deriving DecidableEq, Repr

def dummyToken : Token :=
  { text := "", lemma_ := "", pos_ := "", dep_ := "", children := [], headIdx := 0 }

/-- A candidate relation `(source, kind, target)`. -/
abbrev Rel := String × String × String

/-- A dependency triplet `(child-lemma, relation-code, head-lemma)`;
the relation code is a named kind or the sentinel `"0"` (Python `str(0)`). -/
abbrev Triplet := String × String × String

/-- `DEPENDENCY_PATTERNS`: the static `(dependency-label, POS) -> kind` table;
the integer sentinel `0` is embedded as the string `"0"` (the source only ever
uses `str(relation)`). -/
def DEPENDENCY_PATTERNS : List ((String × String) × String) :=
  [(("det", "DET"), "0"),
   (("det", "ADP"), "0"),
   (("det", "ADV"), "0"),
   (("nsubj", "PROPN"), "0"),
   (("nsubj", "PRON"), "0"),
   (("nsubj", "NOUN"), "0"),
   (("case", "ADP"), "0"),
   (("amod", "ADJ"), "EST"),
   (("amod", "VERB"), "EST"),
   (("nmod", "NOUN"), "0"),
   (("nmod", "ADJ"), "0"),
   (("obj", "NOUN"), "0"),
   (("obj", "PROPN"), "0"),
   (("obj", "PRON"), "0"),
   (("obj", "ADJ"), "0"),
   (("conj", "ADJ"), "0"),
   (("conj", "VERB"), "0"),
   (("conj", "NOUN"), "0"),
   (("conj", "PROPN"), "0"),
   (("acl:relcl", "ADJ"), "EST"),
   (("acl:relcl", "VERB"), "CARACTERISE"),
   (("acl", "ADJ"), "0"),
   (("acl", "VERB"), "0"),
   (("cc", "CCONJ"), "0"),
   (("advmod", "ADV"), "0"),
   (("advmod", "ADJ"), "0"),
   (("obl:arg", "NOUN"), "0"),
   (("obl:arg", "ADJ"), "0"),
   (("obl:mod", "NOUN"), "LOCALISE"),
   (("cop", "AUX"), "0"),
   (("expl:subj", "PRON"), "0"),
   (("expl:comp", "PRON"), "0"),
   (("dep", "VERB"), "0"),
   (("dep", "ADV"), "0"),
   (("dep", "PRON"), "0"),
   (("dep", "NOUN"), "0"),
   (("aux:tense", "AUX"), "0"),
   (("aux:tense", "PROPN"), "0"),
   (("aux:pass", "AUX"), "0"),
   (("flat:name", "ADJ"), "0"),
   (("flat:name", "NOUN"), "0"),
   (("xcomp", "NOUN"), "0"),
   (("xcomp", "VERB"), "IMPLIQUE"),
   (("xcomp", "ADJ"), "0"),
   (("nummod", "NUM"), "QUANTIFIE"),
   (("mark", "ADP"), "0"),
   (("mark", "SCONJ"), "0"),
   (("mark", "ADV"), "0"),
   (("fixed", "SCONJ"), "0"),
   (("advcl", "VERB"), "ASSOCIE"),
   (("advcl", "NOUN"), "0"),
   (("iobj", "PRON"), "0"),
   (("ccomp", "VERB"), "0"),
   (("obl:agent", "NOUN"), "0"),
   (("obl:agent", "PROPN"), "0")]

/-- `self.DEPENDENCY_PATTERNS.get(pattern, 0)`. -/
def lookupPattern (dep posTag : String) : String :=
  match DEPENDENCY_PATTERNS.find? (fun e => e.1 = (dep, posTag)) with
  | some e => e.2
  | none => "0"

/-- `_extract_triplets`: one pass over every token and each non-punctuation
child, emitting `(child.lemma_, relation, child.head.lemma_)`. -/
def extractTriplets (doc : List Token) : List Triplet :=
  doc.flatMap (fun tok =>
    tok.children.filterMap (fun ci =>
      let child := doc.getD ci dummyToken
      if child.dep_ = "punct" then none
      else some (child.lemma_, lookupPattern child.dep_ child.pos_,
                 (doc.getD child.headIdx dummyToken).lemma_)))

/-! ### Fuzzy concept resolver (`_find_in_significatifs`) -/

/-- Stage 1: exact normalized match. -/
def exactMatchP (w : String) (s : String) : Bool :=
  normalize s = normalize w

/-- Stage 2 as implemented: `word_lemma == sig_lemma or word_norm == sig_lemma
or word_lemma == sig_norm`. -/
def lemmaMatchP (lem : String → String) (w : String) (s : String) : Bool :=
  let wn := normalize w
  let wl := lem wn
  let sn := normalize s
  let sl := lem sn
  wl = sl ∨ wn = sl ∨ wl = sn

/-- Stage 2 as the specification words it: shared lemma only. -/
def lemmaSharedP (lem : String → String) (w : String) (s : String) : Bool :=
  lem (normalize w) = lem (normalize s)

/-- Stage 3: singular/plural surface-suffix equivalence (`±"s"`/`±"x"`). -/
def suffixMatchP (w : String) (s : String) : Bool :=
  let wn := normalize w
  let sn := normalize s
  wn ++ "s" = sn ∨ sn ++ "s" = wn ∨ wn ++ "x" = sn ∨ sn ++ "x" = wn

/-- Stage 4: shared 4-character prefix, both words at least 4 characters. -/
def prefixMatchP (w : String) (s : String) : Bool :=
  let wn := normalize w
  let sn := normalize s
  4 ≤ wn.length ∧ 4 ≤ sn.length ∧ wn.data.take 4 = sn.data.take 4

/-- `_find_in_significatifs`: four sequential passes over the vocabulary,
each returning the first hit. -/
def findInSignificatifs (lem : String → String) (w : String) (sigs : List String) :
    Option String :=
  match sigs.find? (exactMatchP w) with
  | some s => some s
  | none =>
    match sigs.find? (lemmaMatchP lem w) with
    | some s => some s
    | none =>
      match sigs.find? (suffixMatchP w) with
      | some s => some s
      | none => sigs.find? (prefixMatchP w)

/-- The resolver as claim C8 describes it (stage 2 = shared lemma only).
Modelled from the claim wording for comparison with the implementation. -/
def findInSignificatifsSpec (lem : String → String) (w : String) (sigs : List String) :
    Option String :=
  match sigs.find? (exactMatchP w) with
  | some s => some s
  | none =>
    match sigs.find? (lemmaSharedP lem w) with
    | some s => some s
    | none =>
      match sigs.find? (suffixMatchP w) with
      | some s => some s
      | none => sigs.find? (prefixMatchP w)

/-! ### POS-pair fallback classifier (`_analyze_semantic_relation`) -/

/-- The body of `_analyze_semantic_relation` as a function of the two POS
lookups (`_get_pos` returns `None` for an empty parse, and Python treats both
`None` and `""` as falsy). -/
def relPos (p1 p2 : Option String) : String :=
  if ¬ isTruthy p1 ∨ ¬ isTruthy p2 then "ASSOCIE"
  else if p1 = some "PROPN" ∧ p2 = some "VERB" then "FAIT"
  else if p2 = some "PROPN" ∧ p1 = some "VERB" then "FAIT"
  else if p1 = some "ADJ" ∧ p2 = some "NOUN" then "EST"
  else if p2 = some "ADJ" ∧ p1 = some "NOUN" then "EST"
  else if p1 = some "ADV" ∧ p2 = some "VERB" then "MODIFIE"
  else if p2 = some "ADV" ∧ p1 = some "VERB" then "MODIFIE"
  else if p1 = some "NOUN" ∧ p2 = some "VERB" then "UTILISE"
  else if p2 = some "NOUN" ∧ p1 = some "VERB" then "UTILISE"
  else if p1 = some "PROPN" ∧ p2 = some "NOUN" then "POSSEDE"
  else if p2 = some "PROPN" ∧ p1 = some "NOUN" then "POSSEDE"
  else if p1 = some "NOUN" ∧ p2 = some "NOUN" then "RELIE"
  else "ASSOCIE"

/-- `_analyze_semantic_relation(word1, word2)`. -/
def analyzeSemanticRelation (pos : String → Option String) (w1 w2 : String) : String :=
  relPos (pos w1) (pos w2)

/-! ### The eight extraction strategies -/

/-- Fallback of the direct strategy: scan one token's children for the first
argument child whose resolution succeeds and differs from `sig2`. -/
def directFallbackChildren (lem : String → String) (sigs : List String)
    (doc : List Token) (sig2 : String) : List Nat → Option Rel
  | [] => none
  | ci :: rest =>
    let child := doc.getD ci dummyToken
    if child.dep_ = "obj" ∨ child.dep_ = "obl:arg" ∨ child.dep_ = "obl:mod" ∨
        child.dep_ = "iobj" then
      let sigObj := findInSignificatifs lem child.text sigs
      if isTruthy sigObj ∧ sigObj.getD "" ≠ sig2 then
        some (sig2, "CONCERNE", sigObj.getD "")
      else directFallbackChildren lem sigs doc sig2 rest
    else directFallbackChildren lem sigs doc sig2 rest

/-- `_extract_direct_relations`. -/
def extractDirectRelations (lem : String → String) (sigs : List String)
    (triplets : List Triplet) (doc : List Token) : List Rel :=
  triplets.flatMap (fun t =>
    let w1 := t.1
    let relation := t.2.1
    let w2 := t.2.2
    if relation ≠ "0" then
      let sig1 := findInSignificatifs lem w1 sigs
      let sig2 := findInSignificatifs lem w2 sigs
      if isTruthy sig1 ∧ isTruthy sig2 then
        let s1 := sig1.getD ""
        let s2 := sig2.getD ""
        let relType := strUpper relation
        if relType = "IMPLIQUE" then [(s2, relType, s1)] else [(s1, relType, s2)]
      else if isTruthy sig2 ∧ ¬ isTruthy sig1 ∧ strUpper relation = "IMPLIQUE" then
        (doc.filterMap (fun tok =>
          if strLower tok.lemma_ = strLower w1 then
            directFallbackChildren lem sigs doc (sig2.getD "") tok.children
          else none))
      else []
    else [])

/-- `_extract_possession_relations`. -/
def extractPossessionRelations (lem : String → String) (pos : String → Option String)
    (sigs : List String) (doc : List Token) : List Rel :=
  doc.filterMap (fun tok =>
    if tok.pos_ = "VERB" then
      let resolved := tok.children.foldl (fun (acc : Option String × Option String) ci =>
        let child := doc.getD ci dummyToken
        if child.dep_ = "nsubj" then (findInSignificatifs lem child.text sigs, acc.2)
        else if child.dep_ = "obj" ∨ child.dep_ = "obl:arg" then
          (acc.1, findInSignificatifs lem child.text sigs)
        else acc) (none, none)
      let sujet := resolved.1
      let objet := resolved.2
      if isTruthy sujet ∧ isTruthy objet ∧ sujet.getD "" ≠ objet.getD "" then
        if pos (sujet.getD "") = some "PROPN" ∧ pos (objet.getD "") = some "NOUN" then
          some (sujet.getD "", "POSSEDE", objet.getD "")
        else none
      else none
    else none)

/-- `est_relations.setdefault(sig2, []).append(sig1)` on an insertion-ordered map. -/
def addEst (k v : String) : List (String × List String) → List (String × List String)
  | [] => [(k, [v])]
  | (k', vs) :: rest =>
    if k' = k then (k, vs ++ [v]) :: rest else (k', vs) :: addEst k v rest

/-- The `est_relations` map built by `_extract_coordinated_attributes`. -/
def buildEstRelations (lem : String → String) (sigs : List String)
    (triplets : List Triplet) : List (String × List String) :=
  triplets.foldl (fun m t =>
    if strUpper t.2.1 = "EST" then
      let sig1 := findInSignificatifs lem t.1 sigs
      let sig2 := findInSignificatifs lem t.2.2 sigs
      if isTruthy sig1 ∧ isTruthy sig2 then addEst (sig2.getD "") (sig1.getD "") m else m
    else m) []

/-- `_extract_coordinated_attributes`. -/
def extractCoordinatedAttributes (lem : String → String) (pos : String → Option String)
    (sigs : List String) (triplets : List Triplet) : List Rel :=
  (buildEstRelations lem sigs triplets).flatMap (fun entry =>
    let objet := entry.1
    let attributs := entry.2
    triplets.filterMap (fun t =>
      if t.2.1 = "0" then
        let sig1 := findInSignificatifs lem t.1 sigs
        let sig2 := findInSignificatifs lem t.2.2 sigs
        match sig1, sig2 with
        | some s1, some s2 =>
          if s1 ∈ attributs ∧ s2 ≠ "" ∧ s2 ∉ attributs ∧ pos s1 = pos s2 then
            some (s2, "EST", objet)
          else none
        | _, _ => none
      else none))

/-- Grandchild scan of `_extract_verb_complement_relations`: first
object/oblique grandchild that resolves and differs from the verb. -/
def verbComplementGrandchildren (lem : String → String) (sigs : List String)
    (doc : List Token) (sigVerb : String) : List Nat → Option Rel
  | [] => none
  | gi :: rest =>
    let gc := doc.getD gi dummyToken
    if gc.dep_ = "obj" ∨ gc.dep_ = "obl:arg" ∨ gc.dep_ = "obl:mod" then
      let sigObj := findInSignificatifs lem gc.text sigs
      if isTruthy sigObj ∧ sigVerb ≠ sigObj.getD "" then
        some (sigVerb, "CONCERNE", sigObj.getD "")
      else verbComplementGrandchildren lem sigs doc sigVerb rest
    else verbComplementGrandchildren lem sigs doc sigVerb rest

/-- `_extract_verb_complement_relations`. -/
def extractVerbComplementRelations (lem : String → String) (sigs : List String)
    (doc : List Token) : List Rel :=
  doc.flatMap (fun tok =>
    if tok.pos_ = "VERB" then
      let sigVerb := pyOro (findInSignificatifs lem tok.text sigs)
        (findInSignificatifs lem tok.lemma_ sigs)
      if isTruthy sigVerb then
        let sv := sigVerb.getD ""
        tok.children.filterMap (fun ci =>
          let child := doc.getD ci dummyToken
          if (child.dep_ = "xcomp" ∨ child.dep_ = "ccomp") ∧ child.pos_ = "VERB" then
            let sigInf := pyOro (findInSignificatifs lem child.text sigs)
              (findInSignificatifs lem child.lemma_ sigs)
            if isTruthy sigInf ∧ sv ≠ sigInf.getD "" then
              some (sv, "IMPLIQUE", sigInf.getD "")
            else if ¬ isTruthy sigInf then
              verbComplementGrandchildren lem sigs doc sv child.children
            else none
          else none)
      else []
    else [])

/-- Inner scan of `_extract_quantification_relations`: first other
noun/proper-noun/verb token that resolves and differs from `sigNoun`. -/
def quantificationOther (lem : String → String) (sigs : List String)
    (sigNoun : String) : List Token → Option Rel
  | [] => none
  | other :: rest =>
    if other.pos_ = "NOUN" ∨ other.pos_ = "PROPN" ∨ other.pos_ = "VERB" then
      let sigOther := findInSignificatifs lem other.text sigs
      if isTruthy sigOther ∧ sigOther.getD "" ≠ sigNoun then
        some (sigOther.getD "", "RELIE", sigNoun)
      else quantificationOther lem sigs sigNoun rest
    else quantificationOther lem sigs sigNoun rest

/-- `_extract_quantification_relations`. -/
def extractQuantificationRelations (lem : String → String) (sigs : List String)
    (doc : List Token) : List Rel :=
  doc.filterMap (fun tok =>
    let head := doc.getD tok.headIdx dummyToken
    if tok.pos_ = "NUM" ∧ head.pos_ = "NOUN" then
      let sigNum := findInSignificatifs lem tok.text sigs
      let sigNoun := pyOro (findInSignificatifs lem head.text sigs)
        (findInSignificatifs lem head.lemma_ sigs)
      if isTruthy sigNum ∧ isTruthy sigNoun ∧ sigNum.getD "" ≠ sigNoun.getD "" then
        some (sigNum.getD "", "QUANTIFIE", sigNoun.getD "")
      else if isTruthy sigNoun ∧ ¬ isTruthy sigNum then
        quantificationOther lem sigs (sigNoun.getD "") doc
      else none
    else none)

/-- `_extract_relative_relations`. -/
def extractRelativeRelations (lem : String → String) (sigs : List String)
    (doc : List Token) : List Rel :=
  doc.filterMap (fun tok =>
    if tok.dep_ = "acl:relcl" ∨ tok.dep_ = "acl" then
      let sigVerb := pyOro (findInSignificatifs lem tok.text sigs)
        (findInSignificatifs lem tok.lemma_ sigs)
      let sigHead := findInSignificatifs lem (doc.getD tok.headIdx dummyToken).text sigs
      if isTruthy sigVerb ∧ isTruthy sigHead ∧ sigVerb.getD "" ≠ sigHead.getD "" then
        some (sigVerb.getD "", "CARACTERISE", sigHead.getD "")
      else none
    else none)

/-- `_extract_zero_relations`. -/
def extractZeroRelations (lem : String → String) (pos : String → Option String)
    (sigs : List String) (triplets : List Triplet) : List Rel :=
  triplets.filterMap (fun t =>
    if t.2.1 = "0" then
      let sig1 := findInSignificatifs lem t.1 sigs
      let sig2 := findInSignificatifs lem t.2.2 sigs
      if isTruthy sig1 ∧ isTruthy sig2 ∧ sig1.getD "" ≠ sig2.getD "" then
        some (sig1.getD "",
              analyzeSemanticRelation pos (sig1.getD "") (sig2.getD ""),
              sig2.getD "")
      else none
    else none)

def locationPreps : List String :=
  ["dans", "sur", "au", "à", "en", "chez", "vers", "sous", "devant", "derrière"]

/-- `_extract_location_relations` (tokens carry their own index so that the
`sibling != token` identity test can be expressed). -/
def extractLocationRelations (lem : String → String) (sigs : List String)
    (doc : List Token) : List Rel :=
  doc.enum.flatMap (fun ti_tok =>
    let ti := ti_tok.1
    let tok := ti_tok.2
    if tok.dep_ = "obl:mod" ∨ tok.dep_ = "obl:arg" ∨ tok.dep_ = "nmod" then
      let hasLocationPrep := tok.children.any (fun ci =>
        let child := doc.getD ci dummyToken
        child.dep_ = "case" ∧ strLower child.text ∈ locationPreps)
      if hasLocationPrep then
        let sigLocation := pyOro (findInSignificatifs lem tok.text sigs)
          (findInSignificatifs lem tok.lemma_ sigs)
        let head := doc.getD tok.headIdx dummyToken
        if head.pos_ = "VERB" then
          head.children.filterMap (fun si =>
            let sibling := doc.getD si dummyToken
            if (sibling.dep_ = "obj" ∨ sibling.dep_ = "nsubj") ∧ si ≠ ti then
              let sigObj := pyOro (findInSignificatifs lem sibling.text sigs)
                (findInSignificatifs lem sibling.lemma_ sigs)
              if isTruthy sigObj ∧ isTruthy sigLocation ∧
                  sigObj.getD "" ≠ sigLocation.getD "" then
                some (sigObj.getD "", "LOCALISE", sigLocation.getD "")
              else none
            else none)
        else []
      else []
    else [])

/-! ### Merge, dedup and coverage (`_extract_all_relations`, `_cover_unused_words`) -/

/-- The reversed orientation of a relation. -/
def revRel (r : Rel) : Rel := (r.2.2, r.2.1, r.1)

/-- One step of the dedup filter: keep a candidate iff all three components are
truthy with non-blank strip, resolve both ends (falling back to the raw text),
and require both resolved ends in the vocabulary; returns the resolved
relation. -/
def resolvedKeep (lem : String → String) (sigs : List String) (r : Rel) :
    Option Rel :=
  if r.1 ≠ "" ∧ strTrim r.1 ≠ "" ∧ r.2.1 ≠ "" ∧ strTrim r.2.1 ≠ "" ∧
      r.2.2 ≠ "" ∧ strTrim r.2.2 ≠ "" then
    if pyOr (findInSignificatifs lem r.1 sigs) r.1 ∈ sigs ∧
        pyOr (findInSignificatifs lem r.2.2 sigs) r.2.2 ∈ sigs then
      some (pyOr (findInSignificatifs lem r.1 sigs) r.1, r.2.1,
            pyOr (findInSignificatifs lem r.2.2 sigs) r.2.2)
    else none
  else none

/-- The `seen`-set dedup loop of `_extract_all_relations`: a surviving
candidate is recorded under its own orientation; a candidate is dropped when
either orientation was already seen. -/
def dedupeRelations (keep : Rel → Option Rel) :
    List Rel → List Rel → List Rel
  | [], _ => []
  | c :: rest, seen =>
    match keep c with
    | none => dedupeRelations keep rest seen
    | some r =>
      if r ∈ seen ∨ revRel r ∈ seen then dedupeRelations keep rest seen
      else r :: dedupeRelations keep rest (r :: seen)

/-- One unused word's scan in `_cover_unused_words`: the first triplet linking
the word to an already-used word yields one relation (both branches of the
source append `(sig1, kind, sig2)`). -/
def coverOne (lem : String → String) (pos : String → Option String)
    (sigs : List String) (used : List String) (word : String) :
    List Triplet → Option Rel
  | [] => none
  | t :: rest =>
    match findInSignificatifs lem t.1 sigs, findInSignificatifs lem t.2.2 sigs with
    | some s1, some s2 =>
      if s1 = word ∧ s2 ∈ used then
        some (s1, analyzeSemanticRelation pos s1 s2, s2)
      else if s2 = word ∧ s1 ∈ used then
        some (s1, analyzeSemanticRelation pos s1 s2, s2)
      else coverOne lem pos sigs used word rest
    | _, _ => coverOne lem pos sigs used word rest

/-- `_cover_unused_words`. -/
def coverUnusedWords (lem : String → String) (pos : String → Option String)
    (sigs : List String) (used : List String) (triplets : List Triplet) : List Rel :=
  (sigs.filter (fun w => decide (w ∉ used))).filterMap
    (fun word => coverOne lem pos sigs used word triplets)

/-- The concatenation of the eight strategies' candidates (`all_relations`). -/
def allCandidates (lem : String → String) (pos : String → Option String)
    (sigs : List String) (triplets : List Triplet) (doc : List Token) : List Rel :=
  extractDirectRelations lem sigs triplets doc ++
  extractPossessionRelations lem pos sigs doc ++
  extractCoordinatedAttributes lem pos sigs triplets ++
  extractVerbComplementRelations lem sigs doc ++
  extractQuantificationRelations lem sigs doc ++
  extractRelativeRelations lem sigs doc ++
  extractZeroRelations lem pos sigs triplets ++
  extractLocationRelations lem sigs doc

/-- The deduplicated survivors (`unique`). -/
def uniqueRelations (lem : String → String) (pos : String → Option String)
    (sigs : List String) (triplets : List Triplet) (doc : List Token) : List Rel :=
  dedupeRelations (resolvedKeep lem sigs)
    (allCandidates lem pos sigs triplets doc) []

/-- `used`: every endpoint of a surviving relation. -/
def usedWords (lem : String → String) (pos : String → Option String)
    (sigs : List String) (triplets : List Triplet) (doc : List Token) : List String :=
  (uniqueRelations lem pos sigs triplets doc).map (·.1) ++
  (uniqueRelations lem pos sigs triplets doc).map (·.2.2)

/-- `_extract_all_relations`. -/
def extractAllRelations (lem : String → String) (pos : String → Option String)
    (sigs : List String) (triplets : List Triplet) (doc : List Token) : List Rel :=
  uniqueRelations lem pos sigs triplets doc ++
  coverUnusedWords lem pos sigs (usedWords lem pos sigs triplets doc) triplets

/-! ### `extract` (per-sentence entry point)

Tokenization/tagging is the upstream annotator's job (spec §1, §6): the parsed
`doc` and the significant-word list `sigs` (`_extract_significant_words`) are
inputs here.  The sentence counter is threaded explicitly. -/

/-- `get_next_sentence_id`: returns the incremented counter and the new
counter state. -/
def getNextSentenceId (counter : Int) : Int × Int :=
  (counter + 1, counter + 1)

/-- Output of `extract`: the word dicts, the relation dicts (each paired with
the sentence id and emotion vector) and the new counter state. -/
structure ExtractResult where
  mots : List (String × Int × List ℚ)
  relations : List (Rel × Int × List ℚ)
  counter : Int
deriving DecidableEq, Repr

/-- `RelationExtractor.extract`. -/
def extract (lem : String → String) (pos : String → Option String)
    (doc : List Token) (sigs : List String)
    (sentenceId : Option Int) (emotions : Option (List ℚ))
    (counter : Int) : ExtractResult :=
  let sidCounter :=
    match sentenceId with
    | some s => (s, counter)
    | none => getNextSentenceId counter
  let sid := sidCounter.1
  let counter' := sidCounter.2
  let emo := emotions.getD (List.replicate 24 0)
  let triplets := extractTriplets doc
  let relations := extractAllRelations lem pos sigs triplets doc
  { mots := sigs.map (fun mot => (mot, sid, emo))
    relations := relations.map (fun r => (r, sid, emo))
    counter := counter' }

/-! ## Theorems -/

/-! ### C5: the emotional state store -/

lemma setEntry_setEntry (k : Int) (v v' : List ℚ) (l : List (Int × List ℚ)) :
    setEntry k v' (setEntry k v l) = setEntry k v' l := by
  induction l with
  | nil => simp [setEntry]
  | cons hd tl ih =>
    obtain ⟨k', v''⟩ := hd
    by_cases h : k' = k
    · simp [setEntry, h]
    · simp [setEntry, h, ih]

lemma find?_setEntry_self (k : Int) (v : List ℚ) (l : List (Int × List ℚ)) :
    (setEntry k v l).find? (fun p => p.1 = k) = some (k, v) := by
  induction l with
  | nil => simp [setEntry]
  | cons hd tl ih =>
    obtain ⟨k', v''⟩ := hd
    by_cases h : k' = k
    · simp [setEntry, h]
    · simp [setEntry, h, ih]

lemma find?_setEntry_other (k k' : Int) (hk : k' ≠ k) (v : List ℚ)
    (l : List (Int × List ℚ)) :
    (setEntry k v l).find? (fun p => p.1 = k') = l.find? (fun p => p.1 = k') := by
  induction l with
  | nil => simp [setEntry, Ne.symm hk]
  | cons hd tl ih =>
    obtain ⟨k'', v''⟩ := hd
    by_cases h : k'' = k
    · subst h
      simp [setEntry, Ne.symm hk]
    · by_cases h' : k'' = k'
      · subst h'
        simp [setEntry, h]
      · simp [setEntry, h, h', ih]

/-- C5: recording `(key, id, vector)` twice leaves the store in the same state
as recording it once; re-recording the same id with a different vector
replaces exactly that entry, and every other id's entry is unchanged. -/
theorem addState_idempotent_replace (w : WordWithEmotions) (sid : Int)
    (e e' : Option (List ℚ)) :
    addState (addState w sid e) sid e = addState w sid e
    ∧ getState (addState (addState w sid e) sid e') sid
        = some (e'.getD (List.replicate 24 0))
    ∧ ∀ sid' : Int, sid' ≠ sid →
        getState (addState (addState w sid e) sid e') sid'
          = getState (addState w sid e) sid' := by
  refine ⟨?_, ?_, ?_⟩
  · simp [addState, setEntry_setEntry]
  · simp [addState, getState, find?_setEntry_self]
  · intro sid' h
    simp [addState, getState, find?_setEntry_other sid sid' h]

/-- Witness for C5 at a concrete store. -/
theorem addState_idempotent_replace_witness :
    (2 : Int) ≠ 1
    ∧ getState
        (addState (addState ⟨"chat", [(2, [1])]⟩ 1 (some [5])) 1 (some [7])) 2
      = getState (addState ⟨"chat", [(2, [1])]⟩ 1 (some [5])) 2 :=
  ⟨by decide,
   (addState_idempotent_replace ⟨"chat", [(2, [1])]⟩ 1 (some [5]) (some [7])).2.2 2
     (by decide)⟩

/-! ### C3: the analyzer on an empty observation map -/

/-- C3: the analyzer on a zero-observation map returns exactly the neutral
defaults (dominant `"Neutre"`, valence 0, stability 1, trajectory `"stable"`,
trauma 0, all-zero 24-length average vector) and, being a total function,
never fails. -/
theorem analyzeHistory_empty_defaults :
    (analyzeHistory []).dominantEmotion = "Neutre"
    ∧ (analyzeHistory []).avgValence = 0
    ∧ (analyzeHistory []).stability = 1
    ∧ (analyzeHistory []).trajectory = "stable"
    ∧ (analyzeHistory []).traumaScore = 0
    ∧ (analyzeHistory []).avgEmotions = List.replicate 24 0 := by
  refine ⟨rfl, rfl, rfl, rfl, rfl, rfl⟩

/-! ### C10: the sentence counter is untouched when `sentence_id` is given -/

/-- C10: `extract` with an explicit `sentence_id` leaves the internal sentence
counter unchanged; the counter is incremented exactly when the id is
omitted. -/
theorem extract_counter_frame (lem : String → String) (pos : String → Option String)
    (doc : List Token) (sigs : List String) (emotions : Option (List ℚ))
    (counter : Int) :
    (∀ s : Int,
      (extract lem pos doc sigs (some s) emotions counter).counter = counter)
    ∧ (extract lem pos doc sigs none emotions counter).counter = counter + 1 :=
  ⟨fun _ => rfl, rfl⟩

/-! ### C9: the POS-pair fallback classifier is symmetric -/

set_option maxHeartbeats 1000000 in
lemma relPos_comm (p1 p2 : Option String) : relPos p1 p2 = relPos p2 p1 := by
  by_cases h1 : isTruthy p1
  · by_cases h2 : isTruthy p2
    · have hp1 : p1 = some "PROPN" ∨ p1 = some "VERB" ∨ p1 = some "ADJ" ∨
          p1 = some "NOUN" ∨ p1 = some "ADV" ∨
          (p1 ≠ some "PROPN" ∧ p1 ≠ some "VERB" ∧ p1 ≠ some "ADJ" ∧
           p1 ≠ some "NOUN" ∧ p1 ≠ some "ADV") := by tauto
      have hp2 : p2 = some "PROPN" ∨ p2 = some "VERB" ∨ p2 = some "ADJ" ∨
          p2 = some "NOUN" ∨ p2 = some "ADV" ∨
          (p2 ≠ some "PROPN" ∧ p2 ≠ some "VERB" ∧ p2 ≠ some "ADJ" ∧
           p2 ≠ some "NOUN" ∧ p2 ≠ some "ADV") := by tauto
      rcases hp1 with h | h | h | h | h | ⟨a1, a2, a3, a4, a5⟩ <;>
        rcases hp2 with g | g | g | g | g | ⟨b1, b2, b3, b4, b5⟩ <;>
        simp_all [relPos]
    · simp [relPos, h2]
  · simp [relPos, h1]

/-- C9: `_analyze_semantic_relation` depends only on the two POS lookups and
is symmetric in its two word arguments. -/
theorem analyzeSemanticRelation_symmetric (pos : String → Option String)
    (w1 w2 : String) :
    analyzeSemanticRelation pos w1 w2 = relPos (pos w1) (pos w2)
    ∧ analyzeSemanticRelation pos w1 w2 = analyzeSemanticRelation pos w2 w1 :=
  ⟨rfl, relPos_comm (pos w1) (pos w2)⟩

/-! ### Shared lemmas about the resolver, dedup and coverage passes -/

/-- The resolver only ever returns vocabulary members. -/
lemma findInSig_mem (lem : String → String) (w : String) (sigs : List String)
    (s : String) (h : findInSignificatifs lem w sigs = some s) : s ∈ sigs := by
  unfold findInSignificatifs at h
  rcases h0 : sigs.find? (exactMatchP w) with _ | s0
  · rcases h1 : sigs.find? (lemmaMatchP lem w) with _ | s1
    · rcases h2 : sigs.find? (suffixMatchP w) with _ | s2
      · rw [h0, h1, h2] at h
        exact List.mem_of_find?_eq_some h
      · rw [h0, h1, h2] at h
        cases h
        exact List.mem_of_find?_eq_some h2
    · rw [h0, h1] at h
      cases h
      exact List.mem_of_find?_eq_some h1
  · rw [h0] at h
    cases h
    exact List.mem_of_find?_eq_some h0

/-- A candidate surviving the dedup filter has both endpoints in the
vocabulary. -/
lemma resolvedKeep_sigs (lem : String → String) (sigs : List String) (c r : Rel)
    (h : resolvedKeep lem sigs c = some r) : r.1 ∈ sigs ∧ r.2.2 ∈ sigs := by
  unfold resolvedKeep at h
  split_ifs at h with h1 h2
  cases h
  exact ⟨h2.1, h2.2⟩

/-- Matching either orientation of the unordered pair `{A,B}` with kind `k`. -/
def ukP (A k B : String) (r : Rel) : Bool :=
  decide (r = (A, k, B) ∨ r = (B, k, A))

/-- Every element of the dedup output satisfies any property enjoyed by all
kept candidates. -/
lemma dedupe_mem_all (keep : Rel → Option Rel) (P : Rel → Prop)
    (hkeep : ∀ c r, keep c = some r → P r) :
    ∀ (cands seen : List Rel) (r : Rel),
      r ∈ dedupeRelations keep cands seen → P r := by
  intro cands
  induction cands with
  | nil =>
    intro seen r h
    simp [dedupeRelations] at h
  | cons c rest ih =>
    intro seen r h
    rcases hk : keep c with _ | r0
    · simp only [dedupeRelations, hk] at h
      exact ih seen r h
    · simp only [dedupeRelations, hk] at h
      by_cases hseen : r0 ∈ seen ∨ revRel r0 ∈ seen
      · rw [if_pos hseen] at h
        exact ih seen r h
      · rw [if_neg hseen] at h
        rcases List.mem_cons.mp h with rfl | h'
        · exact hkeep c r hk
        · exact ih (r0 :: seen) r h'

/-- Per unordered pair and kind, the dedup loop keeps at most one relation;
once an orientation is in `seen`, it keeps none. -/
lemma dedupe_countP (keep : Rel → Option Rel) (A k B : String) :
    ∀ (cands seen : List Rel),
      (((A, k, B) ∉ seen ∧ (B, k, A) ∉ seen) →
        ((dedupeRelations keep cands seen).countP (ukP A k B)) ≤ 1)
      ∧ (((A, k, B) ∈ seen ∨ (B, k, A) ∈ seen) →
        ((dedupeRelations keep cands seen).countP (ukP A k B)) = 0) := by
  intro cands
  induction cands with
  | nil =>
    intro seen
    constructor <;> intro _ <;> simp [dedupeRelations]
  | cons c rest ih =>
    intro seen
    rcases hk : keep c with _ | r0
    · constructor <;> intro hs <;> simp only [dedupeRelations, hk]
      · exact (ih seen).1 hs
      · exact (ih seen).2 hs
    · by_cases hseen : r0 ∈ seen ∨ revRel r0 ∈ seen
      · constructor <;> intro hs <;> simp only [dedupeRelations, hk, if_pos hseen]
        · exact (ih seen).1 hs
        · exact (ih seen).2 hs
      · constructor <;> intro hs <;>
          simp only [dedupeRelations, hk, if_neg hseen] <;> rw [List.countP_cons]
        · by_cases hr : ukP A k B r0 = true
          · have hmem : (A, k, B) ∈ r0 :: seen ∨ (B, k, A) ∈ r0 :: seen := by
              rcases (by simpa [ukP] using hr : r0 = (A, k, B) ∨ r0 = (B, k, A))
                with h | h
              · left
                rw [← h]
                exact List.mem_cons_self r0 seen
              · right
                rw [← h]
                exact List.mem_cons_self r0 seen
            have h0 := (ih (r0 :: seen)).2 hmem
            simp [h0, hr]
          · have hs' : (A, k, B) ∉ r0 :: seen ∧ (B, k, A) ∉ r0 :: seen := by
              constructor <;> intro hmem
              · rcases List.mem_cons.mp hmem with h | h
                · exact hr (by simp [ukP, ← h])
                · exact hs.1 h
              · rcases List.mem_cons.mp hmem with h | h
                · exact hr (by simp [ukP, ← h])
                · exact hs.2 h
            have ht := (ih (r0 :: seen)).1 hs'
            simpa [hr] using ht
        · have hr : ¬ (ukP A k B r0 = true) := by
            intro hr
            rcases (by simpa [ukP] using hr : r0 = (A, k, B) ∨ r0 = (B, k, A))
              with h | h <;> subst h
            · rcases hs with h' | h'
              · exact hseen (Or.inl h')
              · exact hseen (Or.inr h')
            · rcases hs with h' | h'
              · exact hseen (Or.inr h')
              · exact hseen (Or.inl h')
          have h0 := (ih (r0 :: seen)).2 (by
            rcases hs with h | h
            · exact Or.inl (List.mem_cons_of_mem _ h)
            · exact Or.inr (List.mem_cons_of_mem _ h))
          simp [hr, h0]

/-- If some candidate resolves to an orientation of `{A,B}` with kind `k` and
no orientation is in `seen`, one survivor with that key exists. -/
lemma dedupe_exists (keep : Rel → Option Rel) (A k B : String) :
    ∀ (cands seen : List Rel),
      (A, k, B) ∉ seen → (B, k, A) ∉ seen →
      (∃ c ∈ cands, ∃ r, keep c = some r ∧ ukP A k B r = true) →
      ∃ r ∈ dedupeRelations keep cands seen, ukP A k B r = true := by
  intro cands
  induction cands with
  | nil =>
    intro seen _ _ hex
    simp at hex
  | cons c rest ih =>
    intro seen hA hB hex
    rcases hk : keep c with _ | r0
    · simp only [dedupeRelations, hk]
      apply ih seen hA hB
      obtain ⟨c', hc', r', hkr', hr'⟩ := hex
      rcases List.mem_cons.mp hc' with rfl | hmem
      · rw [hk] at hkr'
        cases hkr'
      · exact ⟨c', hmem, r', hkr', hr'⟩
    · by_cases hr0 : ukP A k B r0 = true
      · have hnot : ¬ (r0 ∈ seen ∨ revRel r0 ∈ seen) := by
          intro hmem
          rcases (by simpa [ukP] using hr0 : r0 = (A, k, B) ∨ r0 = (B, k, A))
            with h | h <;> subst h
          · rcases hmem with h' | h'
            · exact hA h'
            · exact hB h'
          · rcases hmem with h' | h'
            · exact hB h'
            · exact hA h'
        simp only [dedupeRelations, hk, if_neg hnot]
        exact ⟨r0, List.mem_cons_self _ _, hr0⟩
      · have hex' : ∃ c ∈ rest, ∃ r, keep c = some r ∧ ukP A k B r = true := by
          obtain ⟨c', hc', r', hkr', hr'⟩ := hex
          rcases List.mem_cons.mp hc' with rfl | hmem
          · rw [hk] at hkr'
            cases hkr'
            exact absurd hr' hr0
          · exact ⟨c', hmem, r', hkr', hr'⟩
        by_cases hseen : r0 ∈ seen ∨ revRel r0 ∈ seen
        · simp only [dedupeRelations, hk, if_pos hseen]
          exact ih seen hA hB hex'
        · simp only [dedupeRelations, hk, if_neg hseen]
          have hA' : (A, k, B) ∉ r0 :: seen := by
            intro hmem
            rcases List.mem_cons.mp hmem with h | h
            · exact hr0 (by simp [ukP, ← h])
            · exact hA h
          have hB' : (B, k, A) ∉ r0 :: seen := by
            intro hmem
            rcases List.mem_cons.mp hmem with h | h
            · exact hr0 (by simp [ukP, ← h])
            · exact hB h
          obtain ⟨r, hrmem, hrp⟩ := ih (r0 :: seen) hA' hB' hex'
          exact ⟨r, List.mem_cons_of_mem _ hrmem, hrp⟩

/-- First-seen wins: the first candidate whose resolution maps to a fresh
unordered key survives the dedup loop. -/
lemma dedupe_first_seen (keep : Rel → Option Rel) :
    ∀ (l1 : List Rel) (c : Rel) (l2 seen : List Rel) (r : Rel),
      keep c = some r → r ∉ seen → revRel r ∉ seen →
      (∀ c' ∈ l1, ∀ r', keep c' = some r' → r' ≠ r ∧ r' ≠ revRel r) →
      r ∈ dedupeRelations keep (l1 ++ c :: l2) seen := by
  intro l1
  induction l1 with
  | nil =>
    intro c l2 seen r hk hr hrev _
    have hnot : ¬ (r ∈ seen ∨ revRel r ∈ seen) := by tauto
    simp only [List.nil_append, dedupeRelations, hk, if_neg hnot]
    exact List.mem_cons_self _ _
  | cons c' l1' ih =>
    intro c l2 seen r hk hr hrev hprev
    rcases hk' : keep c' with _ | r'
    · simp only [List.cons_append, dedupeRelations, hk']
      exact ih c l2 seen r hk hr hrev
        (fun x hx => hprev x (List.mem_cons_of_mem _ hx))
    · have hne := hprev c' (List.mem_cons_self _ _) r' hk'
      by_cases hseen : r' ∈ seen ∨ revRel r' ∈ seen
      · simp only [List.cons_append, dedupeRelations, hk', if_pos hseen]
        exact ih c l2 seen r hk hr hrev
          (fun x hx => hprev x (List.mem_cons_of_mem _ hx))
      · simp only [List.cons_append, dedupeRelations, hk', if_neg hseen]
        apply List.mem_cons_of_mem
        apply ih c l2 (r' :: seen) r hk
        · intro hmem
          rcases List.mem_cons.mp hmem with h | h
          · exact hne.1 h.symm
          · exact hr h
        · intro hmem
          rcases List.mem_cons.mp hmem with h | h
          · exact hne.2 h.symm
          · exact hrev h
        · exact fun x hx => hprev x (List.mem_cons_of_mem _ hx)

/-- Every relation the coverage scan emits links the unused word to an
already-used word, and both endpoints are vocabulary members. -/
lemma coverOne_shape (lem : String → String) (pos : String → Option String)
    (sigs used : List String) (word : String) :
    ∀ (trips : List Triplet) (r : Rel),
      coverOne lem pos sigs used word trips = some r →
      ((r.1 = word ∧ r.2.2 ∈ used) ∨ (r.2.2 = word ∧ r.1 ∈ used))
      ∧ r.1 ∈ sigs ∧ r.2.2 ∈ sigs := by
  intro trips
  induction trips with
  | nil =>
    intro r h
    simp [coverOne] at h
  | cons t rest ih =>
    intro r h
    rcases h1 : findInSignificatifs lem t.1 sigs with _ | s1 <;>
      rcases h2 : findInSignificatifs lem t.2.2 sigs with _ | s2 <;>
        simp only [coverOne, h1, h2] at h
    · exact ih r h
    · exact ih r h
    · exact ih r h
    · split_ifs at h with hc1 hc2
      · cases h
        exact ⟨Or.inl ⟨hc1.1, hc1.2⟩,
          findInSig_mem lem t.1 sigs s1 h1, findInSig_mem lem t.2.2 sigs s2 h2⟩
      · cases h
        exact ⟨Or.inr ⟨hc2.1, hc2.2⟩,
          findInSig_mem lem t.1 sigs s1 h1, findInSig_mem lem t.2.2 sigs s2 h2⟩
      · exact ih r h

/-- Two coverage relations matching the same unordered key come from the same
unused word. -/
lemma cover_match_unique (used : List String) (A k B : String)
    (w w' : String) (r r' : Rel)
    (hw : w ∉ used) (hw' : w' ∉ used)
    (hshape : (r.1 = w ∧ r.2.2 ∈ used) ∨ (r.2.2 = w ∧ r.1 ∈ used))
    (hshape' : (r'.1 = w' ∧ r'.2.2 ∈ used) ∨ (r'.2.2 = w' ∧ r'.1 ∈ used))
    (hm : r = (A, k, B) ∨ r = (B, k, A)) (hm' : r' = (A, k, B) ∨ r' = (B, k, A)) :
    w = w' := by
  rcases hm with rfl | rfl <;> rcases hm' with rfl | rfl <;>
    rcases hshape with ⟨h1, h2⟩ | ⟨h1, h2⟩ <;>
      rcases hshape' with ⟨g1, g2⟩ | ⟨g1, g2⟩ <;> simp_all

/-- When both `A` and `B` are already used, no coverage relation matches the
key `{A,B}` with kind `k`. -/
lemma cover_countP_zero (lem : String → String) (pos : String → Option String)
    (sigs used : List String) (trips : List Triplet) (A k B : String)
    (hA : A ∈ used) (hB : B ∈ used) (ws : List String)
    (hw : ∀ w ∈ ws, w ∉ used) :
    ((ws.filterMap (fun w => coverOne lem pos sigs used w trips)).countP
      (ukP A k B)) = 0 := by
  rw [List.countP_eq_zero]
  intro r hr
  rw [List.mem_filterMap] at hr
  obtain ⟨w, hwmem, hcov⟩ := hr
  intro hukp
  have hshape := (coverOne_shape lem pos sigs used w trips r hcov).1
  have _hw := hw w hwmem
  rcases (by simpa [ukP] using hukp : r = (A, k, B) ∨ r = (B, k, A)) with rfl | rfl <;>
    rcases hshape with ⟨h1, h2⟩ | ⟨h1, h2⟩ <;> simp_all

/-- Across distinct unused words, at most one coverage relation matches a
given unordered key. -/
lemma cover_countP_le_one (lem : String → String) (pos : String → Option String)
    (sigs used : List String) (trips : List Triplet) (A k B : String) :
    ∀ (ws : List String), ws.Nodup → (∀ w ∈ ws, w ∉ used) →
      ((ws.filterMap (fun w => coverOne lem pos sigs used w trips)).countP
        (ukP A k B)) ≤ 1 := by
  intro ws
  induction ws with
  | nil => simp
  | cons w ws' ih =>
    intro hnd hw
    have hnd' := List.nodup_cons.mp hnd
    rw [List.filterMap_cons]
    rcases hc : coverOne lem pos sigs used w trips with _ | r
    · exact ih hnd'.2 (fun x hx => hw x (List.mem_cons_of_mem _ hx))
    · rw [List.countP_cons]
      by_cases hr : ukP A k B r = true
      · have h0 : ((ws'.filterMap (fun w => coverOne lem pos sigs used w trips)).countP
            (ukP A k B)) = 0 := by
          rw [List.countP_eq_zero]
          intro r' hr'mem
          obtain ⟨w', hw'mem, hcov'⟩ := List.mem_filterMap.mp hr'mem
          intro hr'p
          have hsh := (coverOne_shape lem pos sigs used w trips r hc).1
          have hsh' := (coverOne_shape lem pos sigs used w' trips r' hcov').1
          have heq : w = w' := cover_match_unique used A k B w w' r r'
            (hw w (List.mem_cons_self _ _))
            (hw w' (List.mem_cons_of_mem _ hw'mem)) hsh hsh'
            (by simpa [ukP] using hr) (by simpa [ukP] using hr'p)
          exact hnd'.1 (heq ▸ hw'mem)
        simp [h0, hr]
      · have ht := ih hnd'.2 (fun x hx => hw x (List.mem_cons_of_mem _ hx))
        simpa [hr] using ht

/-! ### C8: the fuzzy concept resolver -/

/-- A lemmatizer oracle under which the implemented stage 2 fires through the
cross comparison `word_norm == sig_lemma` although the two lemmas differ. -/
def lemC8 : String → String := fun s =>
  if s = "chat" then "chatz"
  else if s = "felin" then "chat"
  else if s = "chats" then "chatsz"
  else s

/-- C8 counterexample: stage 2 of `_find_in_significatifs` is not "shared
lemma" — it also fires when the normalized word equals a candidate's lemma.
Here the claim's staged algorithm resolves `"chat"` to `"chats"` (via the
suffix stage) while the implementation returns `"felin"` at its stage 2. -/
theorem findInSignificatifs_spec_divergence :
    findInSignificatifs lemC8 "chat" ["felin", "chats"] = some "felin"
    ∧ findInSignificatifsSpec lemC8 "chat" ["felin", "chats"] = some "chats"
    ∧ ("felin" : String) ≠ "chats" :=
  ⟨rfl, rfl, by decide⟩

/-- C8 amended: the resolver tries, in this exact order, exact normalized
match, then the three-way lemma comparison (equal lemmas, or normalized word =
candidate lemma, or word lemma = normalized candidate), then `±s`/`±x`
suffix equivalence, then the shared 4-character prefix; each stage is a full
pass returning its first hit (ties broken by list order), later stages run
only when every earlier stage failed on the whole vocabulary, the result is
always a vocabulary member, and `None` is returned when all stages fail. -/
theorem findInSignificatifs_staged (lem : String → String) (w : String)
    (sigs : List String) :
    (∀ s, sigs.find? (exactMatchP w) = some s →
      findInSignificatifs lem w sigs = some s)
    ∧ (sigs.find? (exactMatchP w) = none →
        ∀ s, sigs.find? (lemmaMatchP lem w) = some s →
          findInSignificatifs lem w sigs = some s)
    ∧ (sigs.find? (exactMatchP w) = none →
        sigs.find? (lemmaMatchP lem w) = none →
        ∀ s, sigs.find? (suffixMatchP w) = some s →
          findInSignificatifs lem w sigs = some s)
    ∧ (sigs.find? (exactMatchP w) = none →
        sigs.find? (lemmaMatchP lem w) = none →
        sigs.find? (suffixMatchP w) = none →
        findInSignificatifs lem w sigs = sigs.find? (prefixMatchP w))
    ∧ (∀ s, findInSignificatifs lem w sigs = some s → s ∈ sigs) := by
  refine ⟨?_, ?_, ?_, ?_, ?_⟩
  · intro s h
    simp [findInSignificatifs, h]
  · intro h0 s h
    simp [findInSignificatifs, h0, h]
  · intro h0 h1 s h
    simp [findInSignificatifs, h0, h1, h]
  · intro h0 h1 h2
    simp [findInSignificatifs, h0, h1, h2]
  · intro s h
    unfold findInSignificatifs at h
    rcases h0 : sigs.find? (exactMatchP w) with _ | s0
    · rcases h1 : sigs.find? (lemmaMatchP lem w) with _ | s1
      · rcases h2 : sigs.find? (suffixMatchP w) with _ | s2
        · rw [h0, h1, h2] at h
          exact List.mem_of_find?_eq_some h
        · rw [h0, h1, h2] at h
          cases h
          exact List.mem_of_find?_eq_some h2
      · rw [h0, h1] at h
        cases h
        exact List.mem_of_find?_eq_some h1
    · rw [h0] at h
      cases h
      exact List.mem_of_find?_eq_some h0

/-- Witness for C8's amended claim at a concrete vocabulary. -/
theorem findInSignificatifs_staged_witness :
    List.find? (exactMatchP "Chat") ["le", "chat"] = some "chat"
    ∧ findInSignificatifs (fun s => s) "Chat" ["le", "chat"] = some "chat" :=
  ⟨rfl, (findInSignificatifs_staged (fun s => s) "Chat" ["le", "chat"]).1 "chat" rfl⟩

/-! ### C4: the trajectory rule -/

lemma sum_sq_expand (l : List ℚ) (m : ℚ) :
    (l.map (fun x => (x - m) ^ 2)).sum
      = (l.map (fun x => x ^ 2)).sum - 2 * m * l.sum + l.length * m ^ 2 := by
  induction l with
  | nil => simp
  | cons a tl ih =>
    simp only [List.map_cons, List.sum_cons, List.length_cons]
    rw [ih]
    push_cast
    ring

lemma sum_sq_le_sum (l : List ℚ) (h : ∀ x ∈ l, 0 ≤ x ∧ x ≤ 1) :
    (l.map (fun x => x ^ 2)).sum ≤ l.sum := by
  induction l with
  | nil => simp
  | cons a tl ih =>
    simp only [List.map_cons, List.sum_cons]
    have ha := h a (by simp)
    have htl := ih (fun x hx => h x (by simp [hx]))
    nlinarith [ha.1, ha.2]

/-- Population variance of values in `[0,1]` is at most `1/4`. -/
lemma popVariance_le_quarter (l : List ℚ) (h : ∀ x ∈ l, 0 ≤ x ∧ x ≤ 1) :
    popVariance l ≤ 1/4 := by
  by_cases hl : l = []
  · subst hl
    norm_num [popVariance, listMean]
  · have hn : (0 : ℚ) < l.length := by
      exact_mod_cast List.length_pos.mpr hl
    have hsum : l.sum = (l.length : ℚ) * listMean l := by
      unfold listMean
      field_simp
    have hQ : (l.map (fun x => x ^ 2)).sum ≤ l.sum := sum_sq_le_sum l h
    have hpv : popVariance l
        = ((l.map (fun x => (x - listMean l) ^ 2)).sum) / (l.length : ℚ) := by
      unfold popVariance
      unfold listMean
      rw [List.length_map]
    calc popVariance l
        = ((l.map (fun x => x ^ 2)).sum - (l.length : ℚ) * listMean l ^ 2)
            / (l.length : ℚ) := by
          rw [hpv, sum_sq_expand l (listMean l), hsum]
          ring
      _ ≤ ((l.length : ℚ) * listMean l - (l.length : ℚ) * listMean l ^ 2)
            / (l.length : ℚ) := by
          apply (div_le_div_iff_of_pos_right hn).mpr
          rw [← hsum]
          linarith
      _ = listMean l - listMean l ^ 2 := by
          field_simp
          ring
      _ ≤ 1/4 := by nlinarith [sq_nonneg (listMean l - 1/2)]

lemma sum_le_length_mul (l : List ℚ) (c : ℚ) (h : ∀ x ∈ l, x ≤ c) :
    l.sum ≤ l.length * c := by
  induction l with
  | nil => simp
  | cons a tl ih =>
    simp only [List.sum_cons, List.length_cons]
    have ha := h a (by simp)
    have htl := ih (fun x hx => h x (by simp [hx]))
    push_cast
    linarith

lemma listMean_le (l : List ℚ) (c : ℚ) (hc : 0 ≤ c) (h : ∀ x ∈ l, x ≤ c) :
    listMean l ≤ c := by
  by_cases hl : l = []
  · subst hl
    simpa [listMean] using hc
  · have hn : (0 : ℚ) < l.length := by
      exact_mod_cast List.length_pos.mpr hl
    unfold listMean
    rw [div_le_iff₀ hn]
    calc l.sum ≤ l.length * c := sum_le_length_mul l c h
      _ = c * l.length := by ring

lemma getD_zero_bounds (v : List ℚ) (i : Nat) (h : ∀ x ∈ v, 0 ≤ x ∧ x ≤ 1) :
    0 ≤ v.getD i 0 ∧ v.getD i 0 ≤ 1 := by
  induction v generalizing i with
  | nil => norm_num [List.getD]
  | cons a tl ih =>
    cases i with
    | zero => simpa using h a (by simp)
    | succ n =>
      simp only [List.getD_cons_succ]
      exact ih n (fun x hx => h x (by simp [hx]))

/-- Mean per-dimension variance of `[0,1]`-valued emotion vectors is at most
`1/4` (in particular the `volatile` threshold `3/10` cannot be crossed). -/
lemma meanVariance_le_quarter (vs : List (List ℚ))
    (h : ∀ v ∈ vs, ∀ x ∈ v, 0 ≤ x ∧ x ≤ 1) : meanVariance vs ≤ 1/4 := by
  unfold meanVariance
  apply listMean_le _ _ (by norm_num)
  intro x hx
  simp only [List.mem_map] at hx
  obtain ⟨i, _, rfl⟩ := hx
  apply popVariance_le_quarter
  intro y hy
  simp only [column, List.mem_map] at hy
  obtain ⟨v, hv, rfl⟩ := hy
  exact getD_zero_bounds v i (h v hv)

lemma analyzeHistory_traj (sts : List (Int × List ℚ)) :
    (analyzeHistory sts).trajectory = trajectoryOf sts := by
  by_cases h : sts = []
  · subst h
    rfl
  · simp [analyzeHistory, h]

lemma polyfitSlope_three (a b c : ℚ) : polyfitSlope [a, b, c] = (c - a) / 2 := by
  unfold polyfitSlope
  norm_num [List.range_succ]
  ring_nf

/-- C4: the analyzer's trajectory is `"stable"` for fewer than 3 observations;
for at least 3 it follows the regression slope of the per-observation valences
(`> 0.1` ascending, `< −0.1` descending, otherwise `volatile` iff the mean
per-dimension variance exceeds `0.3`, else stable); and the three quoted
valence sequences give ascending, descending and (for `[0,1]`-valued emotion
vectors) stable. -/
theorem analyzeHistory_trajectory_rule (sts : List (Int × List ℚ))
    (i0 i1 i2 : Int) (v0 v1 v2 : List ℚ) :
    (sts.length < 3 → (analyzeHistory sts).trajectory = "stable")
    ∧ (3 ≤ sts.length →
        1/10 < polyfitSlope ((sts.map (fun p => p.2)).map computeValence) →
        (analyzeHistory sts).trajectory = "ascending")
    ∧ (3 ≤ sts.length →
        ¬ (1/10 < polyfitSlope ((sts.map (fun p => p.2)).map computeValence)) →
        polyfitSlope ((sts.map (fun p => p.2)).map computeValence) < -(1/10) →
        (analyzeHistory sts).trajectory = "descending")
    ∧ (3 ≤ sts.length →
        ¬ (1/10 < polyfitSlope ((sts.map (fun p => p.2)).map computeValence)) →
        ¬ (polyfitSlope ((sts.map (fun p => p.2)).map computeValence) < -(1/10)) →
        3/10 < meanVariance (sts.map (fun p => p.2)) →
        (analyzeHistory sts).trajectory = "volatile")
    ∧ (3 ≤ sts.length →
        ¬ (1/10 < polyfitSlope ((sts.map (fun p => p.2)).map computeValence)) →
        ¬ (polyfitSlope ((sts.map (fun p => p.2)).map computeValence) < -(1/10)) →
        ¬ (3/10 < meanVariance (sts.map (fun p => p.2))) →
        (analyzeHistory sts).trajectory = "stable")
    ∧ (computeValence v0 = 1/10 → computeValence v1 = 1/2 →
        computeValence v2 = 9/10 →
        (analyzeHistory [(i0, v0), (i1, v1), (i2, v2)]).trajectory = "ascending")
    ∧ (computeValence v0 = 9/10 → computeValence v1 = 1/2 →
        computeValence v2 = 1/10 →
        (analyzeHistory [(i0, v0), (i1, v1), (i2, v2)]).trajectory = "descending")
    ∧ ((∀ x ∈ v0, 0 ≤ x ∧ x ≤ 1) → (∀ x ∈ v1, 0 ≤ x ∧ x ≤ 1) →
        (∀ x ∈ v2, 0 ≤ x ∧ x ≤ 1) →
        computeValence v0 = 1/2 → computeValence v1 = 1/2 →
        computeValence v2 = 1/2 →
        (analyzeHistory [(i0, v0), (i1, v1), (i2, v2)]).trajectory = "stable") := by
  refine ⟨?_, ?_, ?_, ?_, ?_, ?_, ?_, ?_⟩
  · intro h
    rw [analyzeHistory_traj]
    unfold trajectoryOf
    rw [if_neg (by omega)]
  · intro h3 hs
    rw [analyzeHistory_traj]
    unfold trajectoryOf
    rw [if_pos h3, if_pos hs]
  · intro h3 hs1 hs2
    rw [analyzeHistory_traj]
    unfold trajectoryOf
    rw [if_pos h3, if_neg hs1, if_pos hs2]
  · intro h3 hs1 hs2 hv
    rw [analyzeHistory_traj]
    unfold trajectoryOf
    rw [if_pos h3, if_neg hs1, if_neg hs2, if_pos hv]
  · intro h3 hs1 hs2 hv
    rw [analyzeHistory_traj]
    unfold trajectoryOf
    rw [if_pos h3, if_neg hs1, if_neg hs2, if_neg hv]
  · intro h0 h1 h2
    rw [analyzeHistory_traj]
    unfold trajectoryOf
    simp only [List.map_cons, List.map_nil, h0, h1, h2, polyfitSlope_three]
    norm_num
  · intro h0 h1 h2
    rw [analyzeHistory_traj]
    unfold trajectoryOf
    simp only [List.map_cons, List.map_nil, h0, h1, h2, polyfitSlope_three]
    norm_num
  · intro hb0 hb1 hb2 h0 h1 h2
    have hvar : ¬ ((3 : ℚ)/10 < meanVariance [v0, v1, v2]) := by
      have hle : meanVariance [v0, v1, v2] ≤ 1/4 := by
        apply meanVariance_le_quarter
        intro v hv
        simp only [List.mem_cons, List.not_mem_nil, or_false] at hv
        rcases hv with rfl | rfl | rfl
        · exact hb0
        · exact hb1
        · exact hb2
      linarith
    rw [analyzeHistory_traj]
    unfold trajectoryOf
    simp only [List.map_cons, List.map_nil, h0, h1, h2, polyfitSlope_three]
    norm_num [hvar]

/-- Witness for C4 at concrete emotion vectors realising the quoted valence
sequence `[0.1, 0.5, 0.9]`. -/
theorem analyzeHistory_trajectory_rule_witness :
    computeValence [11/20, 0, 9/20] = 1/10
    ∧ computeValence [3/4, 0, 1/4] = 1/2
    ∧ computeValence [19/20, 0, 1/20] = 9/10
    ∧ (analyzeHistory
        [(1, [11/20, 0, 9/20]), (2, [3/4, 0, 1/4]),
         (3, [19/20, 0, 1/20])]).trajectory = "ascending" :=
  ⟨by norm_num [computeValence, positiveIndices, negativeIndices]; simp,
   by norm_num [computeValence, positiveIndices, negativeIndices]; simp,
   by norm_num [computeValence, positiveIndices, negativeIndices]; simp,
   (analyzeHistory_trajectory_rule [] 1 2 3
      [11/20, 0, 9/20] [3/4, 0, 1/4] [19/20, 0, 1/20]).2.2.2.2.2.1
     (by norm_num [computeValence, positiveIndices, negativeIndices]; simp)
     (by norm_num [computeValence, positiveIndices, negativeIndices]; simp)
     (by norm_num [computeValence, positiveIndices, negativeIndices]; simp)⟩

/-! ### Concrete annotated-sentence scenarios

`docC1` is a well-formed three-token parse (`chat` root, `amod` child `noir`
tagged ADJ, `nmod` child `noir` tagged NOUN); the per-word POS oracle tags the
isolated words as nouns.  `cyclicDoc` is malformed: its two tokens are each
other's head (no root, cyclic head references). -/

def lemId : String → String := fun s => s

def posNoun : String → Option String := fun _ => some "NOUN"

def docC1 : List Token :=
  [{ text := "chat", lemma_ := "chat", pos_ := "NOUN", dep_ := "ROOT",
     children := [1, 2], headIdx := 0 },
   { text := "noir", lemma_ := "noir", pos_ := "ADJ", dep_ := "amod",
     children := [], headIdx := 0 },
   { text := "noir", lemma_ := "noir", pos_ := "NOUN", dep_ := "nmod",
     children := [], headIdx := 0 }]

def sigsC1 : List String := ["noir", "chat"]

def cyclicDoc : List Token :=
  [{ text := "chien", lemma_ := "chien", pos_ := "ADJ", dep_ := "amod",
     children := [1], headIdx := 1 },
   { text := "grand", lemma_ := "grand", pos_ := "ADJ", dep_ := "amod",
     children := [0], headIdx := 0 }]

def cyclicSigs : List String := ["grand", "chien"]

/-! ### C2: vocabulary containment -/

lemma extractAllRelations_mem_sigs (lem : String → String)
    (pos : String → Option String) (sigs : List String) (trips : List Triplet)
    (doc : List Token) :
    ∀ r ∈ extractAllRelations lem pos sigs trips doc,
      r.1 ∈ sigs ∧ r.2.2 ∈ sigs := by
  intro r hr
  unfold extractAllRelations at hr
  rcases List.mem_append.mp hr with h | h
  · exact dedupe_mem_all (resolvedKeep lem sigs) _
      (fun c r h => resolvedKeep_sigs lem sigs c r h) _ _ r h
  · unfold coverUnusedWords at h
    obtain ⟨w, _, hcov⟩ := List.mem_filterMap.mp h
    exact (coverOne_shape lem pos sigs _ w trips r hcov).2

/-- C2: every relation returned by `extract` (coverage relations included) has
both its source and its target in the sentence's significant-word list. -/
theorem extract_vocab_containment (lem : String → String)
    (pos : String → Option String) (doc : List Token) (sigs : List String)
    (sid : Option Int) (emo : Option (List ℚ)) (counter : Int) :
    ∀ e ∈ (extract lem pos doc sigs sid emo counter).relations,
      e.1.1 ∈ sigs ∧ e.1.2.2 ∈ sigs := by
  intro e he
  simp only [extract, List.mem_map] at he
  obtain ⟨r, hr, rfl⟩ := he
  simpa using
    extractAllRelations_mem_sigs lem pos sigs (extractTriplets doc) doc r hr

/-- Witness for C2 at a concrete extraction call. -/
theorem extract_vocab_containment_witness :
    ((("grand", "EST", "chien"), (1 : Int), List.replicate 24 (0 : ℚ))
        ∈ (extract lemId posNoun cyclicDoc cyclicSigs (some 1) none 0).relations)
    ∧ "grand" ∈ cyclicSigs ∧ "chien" ∈ cyclicSigs :=
  ⟨by decide,
   (extract_vocab_containment lemId posNoun cyclicDoc cyclicSigs (some 1) none 0
      (("grand", "EST", "chien"), (1 : Int), List.replicate 24 (0 : ℚ))
      (by decide)).1,
   (extract_vocab_containment lemId posNoun cyclicDoc cyclicSigs (some 1) none 0
      (("grand", "EST", "chien"), (1 : Int), List.replicate 24 (0 : ℚ))
      (by decide)).2⟩

/-! ### C1 and C7: the merge/dedup invariant -/

lemma uniquePart_countP_le_one (lem : String → String)
    (pos : String → Option String) (sigs : List String) (trips : List Triplet)
    (doc : List Token) (A k B : String) :
    ((uniqueRelations lem pos sigs trips doc).countP (ukP A k B)) ≤ 1 := by
  unfold uniqueRelations
  exact (dedupe_countP (resolvedKeep lem sigs) A k B
    (allCandidates lem pos sigs trips doc) []).1 (by simp)

lemma usedWords_of_match (lem : String → String) (pos : String → Option String)
    (sigs : List String) (trips : List Triplet) (doc : List Token)
    (A k B : String) (r0 : Rel)
    (hr0mem : r0 ∈ uniqueRelations lem pos sigs trips doc)
    (hr0p : ukP A k B r0 = true) :
    A ∈ usedWords lem pos sigs trips doc
    ∧ B ∈ usedWords lem pos sigs trips doc := by
  unfold usedWords
  rcases (by simpa [ukP] using hr0p : r0 = (A, k, B) ∨ r0 = (B, k, A)) with rfl | rfl
  · exact ⟨List.mem_append_left _ (List.mem_map.mpr ⟨_, hr0mem, rfl⟩),
           List.mem_append_right _ (List.mem_map.mpr ⟨_, hr0mem, rfl⟩)⟩
  · exact ⟨List.mem_append_right _ (List.mem_map.mpr ⟨_, hr0mem, rfl⟩),
           List.mem_append_left _ (List.mem_map.mpr ⟨_, hr0mem, rfl⟩)⟩

lemma coverPart_countP_zero (lem : String → String)
    (pos : String → Option String) (sigs : List String) (trips : List Triplet)
    (doc : List Token) (A k B : String)
    (hA : A ∈ usedWords lem pos sigs trips doc)
    (hB : B ∈ usedWords lem pos sigs trips doc) :
    ((coverUnusedWords lem pos sigs (usedWords lem pos sigs trips doc)
        trips).countP (ukP A k B)) = 0 := by
  unfold coverUnusedWords
  apply cover_countP_zero _ _ _ _ _ _ _ _ hA hB
  intro w hwmem
  exact of_decide_eq_true (List.mem_filter.mp hwmem).2

/-- C1 amended: with a duplicate-free vocabulary, at most one relation
survives per unordered `{source,target}` pair *and kind* (rather than per
pair), and among same-key candidates the first seen wins; source = target is
not excluded. -/
theorem extractAllRelations_merge_amended (lem : String → String)
    (pos : String → Option String) (sigs : List String) (trips : List Triplet)
    (doc : List Token) (hnd : sigs.Nodup) :
    (∀ A k B, ((extractAllRelations lem pos sigs trips doc).countP
        (ukP A k B)) ≤ 1)
    ∧ (∀ (l1 : List Rel) (c : Rel) (l2 : List Rel) (r : Rel),
        allCandidates lem pos sigs trips doc = l1 ++ c :: l2 →
        resolvedKeep lem sigs c = some r →
        (∀ c' ∈ l1, ∀ r', resolvedKeep lem sigs c' = some r' →
          r' ≠ r ∧ r' ≠ revRel r) →
        r ∈ extractAllRelations lem pos sigs trips doc) := by
  constructor
  · intro A k B
    unfold extractAllRelations
    rw [List.countP_append]
    by_cases hu : (uniqueRelations lem pos sigs trips doc).countP (ukP A k B) = 0
    · rw [hu]
      simp only [Nat.zero_add]
      unfold coverUnusedWords
      apply cover_countP_le_one
      · exact hnd.filter _
      · intro w hwmem
        exact of_decide_eq_true (List.mem_filter.mp hwmem).2
    · have hle := uniquePart_countP_le_one lem pos sigs trips doc A k B
      obtain ⟨r0, hr0mem, hr0p⟩ := List.countP_pos_iff.mp (Nat.pos_of_ne_zero hu)
      have hused := usedWords_of_match lem pos sigs trips doc A k B r0 hr0mem hr0p
      have hc0 := coverPart_countP_zero lem pos sigs trips doc A k B
        hused.1 hused.2
      omega
  · intro l1 c l2 r hsplit hkeep hprev
    unfold extractAllRelations
    apply List.mem_append_left
    unfold uniqueRelations
    rw [hsplit]
    exact dedupe_first_seen (resolvedKeep lem sigs) l1 c l2 [] r hkeep
      (by simp) (by simp) hprev

/-- Witness for C1's amended claim at the concrete `docC1` call. -/
theorem extractAllRelations_merge_amended_witness :
    sigsC1.Nodup
    ∧ (("noir", "EST", "chat") : Rel)
        ∈ extractAllRelations lemId posNoun sigsC1 (extractTriplets docC1) docC1
    ∧ ((extractAllRelations lemId posNoun sigsC1 (extractTriplets docC1)
        docC1).countP (ukP "noir" "EST" "chat")) ≤ 1 :=
  ⟨by decide,
   (extractAllRelations_merge_amended lemId posNoun sigsC1
      (extractTriplets docC1) docC1 (by decide)).2
     [] ("noir", "EST", "chat")
     [("chat", "EST", "chat"), ("noir", "RELIE", "chat")] ("noir", "EST", "chat")
     (by decide) (by decide) (by simp),
   (extractAllRelations_merge_amended lemId posNoun sigsC1
      (extractTriplets docC1) docC1 (by decide)).1 "noir" "EST" "chat"⟩

/-- C1 counterexample: on the well-formed parse `docC1`, the returned list
contains a relation with source = target (`("chat","EST","chat")`, produced by
the coordinated-attributes strategy and not filtered out), and two relations
with the same unordered pair `{noir, chat}` but different kinds (`EST` and
`RELIE`) — so neither half of the claimed invariant holds as stated. -/
theorem extract_merge_claim_false :
    ¬ (∀ e ∈ (extract lemId posNoun docC1 sigsC1 (some 1) none 0).relations,
        e.1.1 ≠ e.1.2.2
        ∧ ∀ e' ∈ (extract lemId posNoun docC1 sigsC1 (some 1) none 0).relations,
            ((e'.1.1 = e.1.1 ∧ e'.1.2.2 = e.1.2.2)
              ∨ (e'.1.1 = e.1.2.2 ∧ e'.1.2.2 = e.1.1)) →
            e'.1.2.1 = e.1.2.1) := by
  decide

/-- C7: if the strategies' candidate list contains both orientations
`(A,k,B)` and `(B,k,A)` of a resolvable, non-blank pair, the merged output
contains exactly one relation with that unordered pair and kind. -/
theorem symmetric_candidates_collapse (lem : String → String)
    (pos : String → Option String) (sigs : List String) (trips : List Triplet)
    (doc : List Token) (A k B : String)
    (hA : findInSignificatifs lem A sigs = some A)
    (hB : findInSignificatifs lem B sigs = some B)
    (hAt : strTrim A ≠ "") (hBt : strTrim B ≠ "") (hkt : strTrim k ≠ "")
    (h1 : (A, k, B) ∈ allCandidates lem pos sigs trips doc)
    (_h2 : (B, k, A) ∈ allCandidates lem pos sigs trips doc) :
    ((extractAllRelations lem pos sigs trips doc).countP (ukP A k B)) = 1 := by
  have hAe : A ≠ "" := fun h => hAt (by rw [h]; rfl)
  have hBe : B ≠ "" := fun h => hBt (by rw [h]; rfl)
  have hke : k ≠ "" := fun h => hkt (by rw [h]; rfl)
  have hAs : A ∈ sigs := findInSig_mem lem A sigs A hA
  have hBs : B ∈ sigs := findInSig_mem lem B sigs B hB
  have hkeep : resolvedKeep lem sigs (A, k, B) = some (A, k, B) := by
    simp [resolvedKeep, pyOr, hA, hB, hAe, hBe, hke, hAt, hBt, hkt, hAs, hBs]
  have hex :=
    dedupe_exists (resolvedKeep lem sigs) A k B
      (allCandidates lem pos sigs trips doc) [] (by simp) (by simp)
      ⟨(A, k, B), h1, (A, k, B), hkeep, by simp [ukP]⟩
  obtain ⟨r0, hr0mem, hr0p⟩ := hex
  have hr0mem' : r0 ∈ uniqueRelations lem pos sigs trips doc := hr0mem
  have hle := uniquePart_countP_le_one lem pos sigs trips doc A k B
  have hpos : 0 < (uniqueRelations lem pos sigs trips doc).countP (ukP A k B) :=
    List.countP_pos_iff.mpr ⟨r0, hr0mem', hr0p⟩
  have hused := usedWords_of_match lem pos sigs trips doc A k B r0 hr0mem' hr0p
  have hc0 := coverPart_countP_zero lem pos sigs trips doc A k B hused.1 hused.2
  unfold extractAllRelations
  rw [List.countP_append, hc0]
  omega

/-- Witness for C7: the malformed two-token parse yields both orientations of
`("grand","EST","chien")` among the candidates. -/
theorem symmetric_candidates_collapse_witness :
    (("grand", "EST", "chien") : Rel)
        ∈ allCandidates lemId posNoun cyclicSigs (extractTriplets cyclicDoc) cyclicDoc
    ∧ (("chien", "EST", "grand") : Rel)
        ∈ allCandidates lemId posNoun cyclicSigs (extractTriplets cyclicDoc) cyclicDoc
    ∧ ((extractAllRelations lemId posNoun cyclicSigs (extractTriplets cyclicDoc)
        cyclicDoc).countP (ukP "grand" "EST" "chien")) = 1 :=
  ⟨by decide, by decide,
   symmetric_candidates_collapse lemId posNoun cyclicSigs
     (extractTriplets cyclicDoc) cyclicDoc "grand" "EST" "chien"
     rfl rfl (by decide) (by decide) (by decide) (by decide) (by decide)⟩

/-! ### C6: malformed head references -/

/-- C6 counterexample: on the cyclic-head document the extractor neither
detects anything nor returns empty results. -/
theorem extract_malformed_not_empty :
    ¬ ((extract lemId posNoun cyclicDoc cyclicSigs (some 1) none 0).mots = []
       ∧ (extract lemId posNoun cyclicDoc cyclicSigs (some 1) none 0).relations
          = []) := by
  decide

/-- C6 amended: extraction performs no head-reference validation; a sentence
with cyclic (or missing) head references is processed by the ordinary single
pass over tokens and child lists — which always terminates and raises no
error — and returns the ordinarily computed, possibly non-empty, words and
relations. -/
theorem extract_malformed_processed :
    (extract lemId posNoun cyclicDoc cyclicSigs (some 1) none 0).relations
      = [(("grand", "EST", "chien"), 1, List.replicate 24 0)]
    ∧ (extract lemId posNoun cyclicDoc cyclicSigs (some 1) none 0).mots
      = [("grand", 1, List.replicate 24 0), ("chien", 1, List.replicate 24 0)]
    ∧ extractTriplets cyclicDoc
      = [("grand", "EST", "chien"), ("chien", "EST", "grand")] := by
  refine ⟨by decide, by decide, by decide⟩

end Clara
